import Mathlib

/-!
Shallow embedding of the ECD coaching-bot comparison scripts.

The repository is a set of Python analysis scripts over JSON session and
message records.  Strings are modelled as lists of characters (Python
indexes strings by code point).  Each definition below is translated from
a named function of the source; duplicated copies of a function in other
script files are embedded separately under a suffixed name so that their
agreement can be stated as a theorem.
-/

namespace ECD

/-- Whitespace characters recognised by Python str.strip, str.split and the
regex whitespace class (ASCII range). -/
def pySpace (c : Char) : Bool :=
  c == ' ' || c == '\t' || c == '\n' || c == '\r' || c == '\x0b' || c == '\x0c'

/-- Model of Python str.lower restricted to ASCII letters. -/
def pyLower (l : List Char) : List Char := l.map Char.toLower

/-- Model of Python str.strip with no argument: drop leading and trailing
whitespace. -/
def pyStrip (l : List Char) : List Char :=
  ((l.dropWhile pySpace).reverse.dropWhile pySpace).reverse

/-- Model of Python str.endswith. -/
def pyEndsWith (s suffix : List Char) : Bool := suffix.isSuffixOf s

/-- Split a character list at newline characters, as regex matching of a
pattern whose pieces never span a newline can be done per line. -/
def splitLines : List Char → List (List Char)
  | [] => [[]]
  | c :: rest =>
    let r := splitLines rest
    if c == '\n' then [] :: r
    else
      match r with
      | [] => [[c]]
      | l :: ls => (c :: l) :: ls

/-- Suffix of s strictly after the first occurrence of pat, when pat occurs
in s as a contiguous sublist; none otherwise.  Models leftmost matching of
a literal inside a regex. -/
def afterFirstOccur (pat : List Char) : List Char → Option (List Char)
  | [] => if pat.isEmpty then some [] else none
  | c :: rest =>
    if pat.isPrefixOf (c :: rest) then some ((c :: rest).drop pat.length)
    else afterFirstOccur pat rest

/-- Model of the Python substring test (pat in s). -/
def containsSub (s pat : List Char) : Bool := (afterFirstOccur pat s).isSome

/-- Model of Python str.split with no argument: the number of maximal runs
of non-whitespace characters.  The Boolean argument records whether the
previous character was part of a word. -/
def pyWordCountAux : Bool → List Char → Nat
  | _, [] => 0
  | inWord, c :: rest =>
    if pySpace c then pyWordCountAux false rest
    else (if inWord then 0 else 1) + pyWordCountAux true rest

/-- Number of words of a Python string, that is, the length of the result
of str.split with no argument. -/
def pyWordCount (l : List Char) : Nat := pyWordCountAux false l

/-- Character class 1-5 used by the rating regexes. -/
def isDigit15 (c : Char) : Bool := ['1', '2', '3', '4', '5'].contains c

/-- Numeric value of a digit character. -/
def digitVal (c : Char) : Nat := c.toNat - 48

/-- Piece of a rating-question regex: the patterns of the scripts are
literals and the class 1-5 separated by dot-star. -/
inductive RePiece where
  | lit : List Char → RePiece
  | digit15 : RePiece
deriving Repr

/-- Suffix of the text after the leftmost match of one piece. -/
def afterPiece : RePiece → List Char → Option (List Char)
  | .lit pat, s => afterFirstOccur pat s
  | .digit15, s =>
    match s.dropWhile (fun c => !isDigit15 c) with
    | [] => none
    | _ :: rest => some rest

/-- Match the pieces in order within one line, with arbitrary gaps, as
dot-star allows any characters except newline between the pieces. -/
def searchPieces : List RePiece → List Char → Bool
  | [], _ => true
  | p :: ps, s =>
    match afterPiece p s with
    | some rest => searchPieces ps rest
    | none => false

/-- Model of re.search for a pattern of pieces separated by dot-star: the
match must lie within a single line because dot does not match newline and
no piece contains a newline. -/
def reSearchDotSep (ps : List RePiece) (s : List Char) : Bool :=
  (splitLines s).any (searchPieces ps)

/-- Word character of the regex word-boundary class (ASCII range). -/
def isWordChar (c : Char) : Bool := c.isAlphanum || c == '_'

/-- Model of re.search for a single 1-5 digit between word boundaries: the
first digit 1-5 whose neighbours are absent or non-word characters.  The
first argument is the character just before the current position. -/
def searchBoundedDigit15 : Option Char → List Char → Option Char
  | _, [] => none
  | prev, c :: rest =>
    let okPrev : Bool := match prev with | none => true | some p => !isWordChar p
    let okNext : Bool := match rest with | [] => true | d :: _ => !isWordChar d
    if isDigit15 c && okPrev && okNext then some c
    else searchBoundedDigit15 (some c) rest

/-- Match of the anchored regex for a lone 1-5 digit surrounded only by
whitespace, applied by the scripts to an already stripped string; returns
the digit when the whole string matches. -/
def matchFullSpacedDigit (s : List Char) : Option Char :=
  match s.dropWhile pySpace with
  | c :: rest =>
    if isDigit15 c && (rest.dropWhile pySpace).isEmpty then some c else none
  | [] => none

/-- Participant record of a session JSON document; the identifier key may
be absent. -/
structure Participant where
  identifier : Option String
deriving Repr, DecidableEq

/-- Session JSON record.  Missing participant is modelled by none; the id
and experiment id default to the empty string when missing, as the scripts
read them with dict.get and an empty-string default. -/
structure Session where
  id : String
  participant : Option Participant
  experimentId : String
  tags : List String
deriving Repr, DecidableEq

/-- Message JSON record: one turn of a session.  The role key may be
absent; content and tags default to empty. -/
structure Message where
  role : Option String
  content : String
  tags : List String
deriving Repr, DecidableEq

/-- Participant identifier as the scripts read it: empty string when the
participant record or its identifier key is missing. -/
def participantIdentifier (s : Session) : String :=
  match s.participant with
  | none => ""
  | some p => p.identifier.getD ""

/-- Version configuration entry of coaching_bot_versions in
version_comparison_simple.py: experiment ids and an optional numeric range
whose upper bound may be open. -/
structure VersionConfig where
  experiment_id : List String
  version_range : Option (Nat × Option Nat)
deriving Repr, DecidableEq

/-- Control bot entry of coaching_bot_versions. -/
def controlBotConfig : VersionConfig :=
  ⟨["1027993a-40c9-4484-a5fb-5c7e034dadcd"], none⟩

/-- Coaching bot V3 entry of coaching_bot_versions. -/
def coachingBotV3Config : VersionConfig :=
  ⟨["e2b4855f-8550-47ff-87d2-d92018676ff3"], none⟩

/-- Coaching bot V4 entry of coaching_bot_versions: versions 13 and above. -/
def coachingBotV4Config : VersionConfig :=
  ⟨["b7621271-da98-459f-9f9b-f68335d09ad4"], some (13, none)⟩

/-- Coaching bot V5 entry of coaching_bot_versions: versions 1 to 4. -/
def coachingBotV5Config : VersionConfig :=
  ⟨["5d8be75e-03ff-4e3a-ab6a-e0aff6580986"], some (1, some 4)⟩

/-- Coaching bot V6 entry of coaching_bot_versions: versions 5 and above. -/
def coachingBotV6Config : VersionConfig :=
  ⟨["5d8be75e-03ff-4e3a-ab6a-e0aff6580986"], some (5, none)⟩

/-- The coaching_bot_versions table of version_comparison_simple.py. -/
def coaching_bot_versions : List (String × VersionConfig) :=
  [("Control bot", controlBotConfig),
   ("Coaching bot V3", coachingBotV3Config),
   ("Coaching bot V4", coachingBotV4Config),
   ("Coaching bot V5", coachingBotV5Config),
   ("Coaching bot V6", coachingBotV6Config)]

/-- Decimal value of a digit string. -/
def digitsToNat (l : List Char) : Nat := l.foldl (fun n c => n * 10 + digitVal c) 0

/-- Version tag test of get_version_from_last_message: the tag starts with
the letter v and the rest is a non-empty run of digits; its numeric value
when it is one. -/
def parseVersionTag (t : String) : Option Nat :=
  match t.data with
  | 'v' :: rest =>
    if !rest.isEmpty && rest.all Char.isDigit then some (digitsToNat rest) else none
  | _ => none

/-- Loop of get_version_from_last_message over the tag list: value of the
first version tag, 0 when none occurs. -/
def firstVersionTagValue : List String → Nat
  | [] => 0
  | t :: ts =>
    match parseVersionTag t with
    | some n => n
    | none => firstVersionTagValue ts

/-- Translation of get_version_from_last_message in
version_comparison_simple.py. -/
def get_version_from_last_message (msgs : List Message) : Nat :=
  match msgs.getLast? with
  | none => 0
  | some last => firstVersionTagValue last.tags

/-- Translation of matches_version in version_comparison_simple.py.  The
version number is 0 when the message argument is absent or the list is
empty, following the Python truthiness test on the messages argument. -/
def matches_version (s : Session) (cfg : VersionConfig) (msgs : Option (List Message)) : Bool :=
  if !(cfg.experiment_id.contains s.experimentId) then false
  else
    let version_number : Nat :=
      match msgs with
      | some ms => if ms.isEmpty then 0 else get_version_from_last_message ms
      | none => 0
    match cfg.version_range with
    | none => true
    | some (lo, none) => decide (lo ≤ version_number)
    | some (lo, some hi) => decide (lo ≤ version_number) && decide (version_number ≤ hi)

/-- Loop of is_split_session: whether some message has the user role. -/
def hasUserMessage : List Message → Bool
  | [] => false
  | m :: ms => if m.role == some "user" then true else hasUserMessage ms

/-- Translation of is_split_session in version_comparison_simple.py: false
when the messages argument is absent, otherwise true exactly when no
message has the user role. -/
def is_split_session (msgs : Option (List Message)) : Bool :=
  match msgs with
  | none => false
  | some ms => !hasUserMessage ms

/-- Translation of is_test_session in version_comparison_simple.py. -/
def is_test_session (s : Session) : Bool :=
  pyEndsWith (participantIdentifier s).data "@dimagi.com".data

/-- Translation of should_exclude_session in version_comparison_simple.py. -/
def should_exclude_session (s : Session) (msgs : Option (List Message)) : Bool :=
  is_split_session msgs || is_test_session s

/-- Translation of has_refrigerator_example_tag in
version_comparison_simple.py. -/
def has_refrigerator_example_tag (s : Session) (msgs : Option (List Message)) : Bool :=
  s.tags.contains "refrigerator_example" ||
    (match msgs with
     | some ms => ms.any (fun m => m.tags.contains "refrigerator_example")
     | none => false)

/-- Translation of has_refrigerator_annotation in
version_comparison_simple.py. -/
def has_refrigerator_annotation (s : Session) (msgs : Option (List Message)) : Bool :=
  (s.tags.contains "refrigerator_example" || s.tags.contains "not_refrigerator_example") ||
    (match msgs with
     | some ms =>
       ms.any (fun m =>
         m.tags.contains "refrigerator_example" || m.tags.contains "not_refrigerator_example")
     | none => false)

/-- Tag branch chain of detect_coaching_method: the method name a single
tag selects, if any. -/
def coachMethodOfTag (t : String) : Option String :=
  if t == "coach_method_scenarios" then some "Scenario"
  else if t == "coach_method_microlearning" then some "Microlearning"
  else if t == "coach_method_microlearning_vaccine" then some "Microlearning vaccines"
  else if t == "coach_method_motivational_interviewing" then some "Motivational interviewing"
  else if t == "coach_method_visit_debrief" then some "Visit check in"
  else none

/-- Loop of detect_coaching_method over a tag list. -/
def firstMethodTag : List String → Option String
  | [] => none
  | t :: ts =>
    match coachMethodOfTag t with
    | some m => some m
    | none => firstMethodTag ts

/-- Loop of detect_coaching_method over message tag lists. -/
def firstMessageMethodTag : List Message → Option String
  | [] => none
  | m :: ms =>
    match firstMethodTag m.tags with
    | some r => some r
    | none => firstMessageMethodTag ms

/-- Keyword lists of the content tier of detect_coaching_method. -/
def scenarioKeywords : List (List Char) :=
  ["roleplay".data, "role-play".data, "scenario 1:".data, "scenario 2:".data]

/-- Keywords of the Microlearning content branch. -/
def microlearningKeywords : List (List Char) :=
  ["quiz".data, "microlearning".data, "short quiz questions".data]

/-- Keywords of the Motivational interviewing content branch. -/
def motivationalKeywords : List (List Char) :=
  ["motivational interview".data, "motivational interviewing".data]

/-- Keywords of the Visit check in content branch. -/
def visitKeywords : List (List Char) :=
  ["visit debrief".data, "home visits".data, "most recent visit".data]

/-- Content branch chain of detect_coaching_method applied to one message
content, after lowercasing. -/
def contentMethod (content : String) : Option String :=
  let c := pyLower content.data
  if scenarioKeywords.any (containsSub c) then some "Scenario"
  else if microlearningKeywords.any (containsSub c) then some "Microlearning"
  else if motivationalKeywords.any (containsSub c) then some "Motivational interviewing"
  else if visitKeywords.any (containsSub c) then some "Visit check in"
  else none

/-- Loop of the content tier of detect_coaching_method over assistant
messages. -/
def firstContentMethod : List Message → Option String
  | [] => none
  | m :: ms =>
    if m.role == some "assistant" then
      match contentMethod m.content with
      | some r => some r
      | none => firstContentMethod ms
    else firstContentMethod ms

/-- Translation of detect_coaching_method in version_comparison_simple.py:
session tags, then message tags, then assistant message content. -/
def detect_coaching_method (s : Session) (msgs : Option (List Message)) : String :=
  match firstMethodTag s.tags with
  | some m => m
  | none =>
    match (match msgs with | none => none | some ms => firstMessageMethodTag ms) with
    | some m => m
    | none =>
      match (match msgs with | none => none | some ms => firstContentMethod ms) with
      | some m => m
      | none => "Unknown"

/-- Rating-question regex patterns of extract_session_rating in
version_comparison_simple.py, in order. -/
def ratingPatterns : List (List RePiece) :=
  [[.lit "how useful".data, .lit "rate".data, .digit15],
   [.lit "rate".data, .lit "useful".data, .digit15],
   [.lit "rate".data, .lit "session".data, .digit15],
   [.lit "rate".data, .lit "coaching".data, .digit15],
   [.lit "number".data, .digit15, .lit "rate".data],
   [.lit "number".data, .digit15, .lit "useful".data],
   [.digit15, .lit "useful".data],
   [.digit15, .lit "session".data],
   [.digit15, .lit "coaching".data]]

/-- Assistant message test of extract_session_rating: the message has the
assistant role and its lowercased content matches one of the
rating-question patterns. -/
def assistantHasRatingQuestion (m : Message) : Bool :=
  m.role == some "assistant" &&
    ratingPatterns.any (fun p => reSearchDotSep p (pyLower m.content.data))

/-- First loop of extract_session_rating, applied to the reversed message
list: whether a rating question is found in an assistant message. -/
def ratingQuestionFound : List Message → Bool
  | [] => false
  | m :: ms => if assistantHasRatingQuestion m then true else ratingQuestionFound ms

/-- Written-number dictionary of extract_session_rating. -/
def writtenNumberValue (l : List Char) : Option Nat :=
  if l = "one".data then some 1
  else if l = "two".data then some 2
  else if l = "three".data then some 3
  else if l = "four".data then some 4
  else if l = "five".data then some 5
  else none

/-- Rating checks of extract_session_rating on one user message: a lone
digit 1-5, a written number one to five, or a standalone digit 1-5 in a
stripped content shorter than 100 characters.  The produced floats are
exact small integers, modelled as naturals. -/
def userMessageRating (m : Message) : Option Nat :=
  let content := pyStrip m.content.data
  match matchFullSpacedDigit content with
  | some c => some (digitVal c)
  | none =>
    match writtenNumberValue (pyLower content) with
    | some n => some n
    | none =>
      match searchBoundedDigit15 none content with
      | some c => if content.length < 100 then some (digitVal c) else none
      | none => none

/-- Second loop of extract_session_rating, applied to the reversed message
list: rating of the first user message one of whose checks fires. -/
def scanUserRatings : List Message → Option Nat
  | [] => none
  | m :: ms =>
    if m.role == some "user" then
      match userMessageRating m with
      | some r => some r
      | none => scanUserRatings ms
    else scanUserRatings ms

/-- Translation of extract_session_rating in version_comparison_simple.py. -/
def extract_session_rating (msgs : List Message) : Option Nat :=
  if msgs.isEmpty then none
  else if ratingQuestionFound msgs.reverse then scanUserRatings msgs.reverse
  else none

/-- Rating-question regex patterns of extract_rating_from_session in
comprehensive_rating_analysis.py, in order. -/
def ratingPatterns_cra : List (List RePiece) :=
  [[.lit "how useful".data, .lit "rate".data, .digit15],
   [.lit "rate".data, .lit "useful".data, .digit15],
   [.lit "rate".data, .lit "session".data, .digit15],
   [.lit "rate".data, .lit "coaching".data, .digit15],
   [.lit "number".data, .digit15, .lit "rate".data],
   [.lit "number".data, .digit15, .lit "useful".data],
   [.digit15, .lit "useful".data],
   [.digit15, .lit "session".data],
   [.digit15, .lit "coaching".data]]

/-- Assistant message test of extract_rating_from_session. -/
def assistantHasRatingQuestion_cra (m : Message) : Bool :=
  m.role == some "assistant" &&
    ratingPatterns_cra.any (fun p => reSearchDotSep p (pyLower m.content.data))

/-- First loop of extract_rating_from_session over the reversed messages. -/
def ratingQuestionFound_cra : List Message → Bool
  | [] => false
  | m :: ms => if assistantHasRatingQuestion_cra m then true else ratingQuestionFound_cra ms

/-- Rating checks of extract_rating_from_session on one user message; this
copy returns Python ints. -/
def userMessageRating_cra (m : Message) : Option Nat :=
  let content := pyStrip m.content.data
  match matchFullSpacedDigit content with
  | some c => some (digitVal c)
  | none =>
    match writtenNumberValue (pyLower content) with
    | some n => some n
    | none =>
      match searchBoundedDigit15 none content with
      | some c => if content.length < 100 then some (digitVal c) else none
      | none => none

/-- Second loop of extract_rating_from_session over the reversed messages. -/
def scanUserRatings_cra : List Message → Option Nat
  | [] => none
  | m :: ms =>
    if m.role == some "user" then
      match userMessageRating_cra m with
      | some r => some r
      | none => scanUserRatings_cra ms
    else scanUserRatings_cra ms

/-- Translation of extract_rating_from_session in
comprehensive_rating_analysis.py. -/
def extract_rating_from_session (msgs : List Message) : Option Nat :=
  if msgs.isEmpty then none
  else if ratingQuestionFound_cra msgs.reverse then scanUserRatings_cra msgs.reverse
  else none

/-- Total words over user-role messages of a session, as both median
computations of version_comparison_simple.py count them. -/
def userWordTotal : List Message → Nat
  | [] => 0
  | m :: ms =>
    (if m.role == some "user" then pyWordCount m.content.data else 0) + userWordTotal ms

/-- Hand-rolled median of calculate_median_words_by_method_and_version in
version_comparison_simple.py: sort, then middle element for odd length and
mean of the two middle elements for even length.  Python float division on
integer word counts is exact, modelled by rationals. -/
def handRolledMedian (l : List Nat) : ℚ :=
  let sorted := l.mergeSort (fun a b => a ≤ b)
  let n := l.length
  if n % 2 == 0 then
    (((sorted.getD (n / 2 - 1) 0 : Nat) : ℚ) + ((sorted.getD (n / 2) 0 : Nat) : ℚ)) / 2
  else ((sorted.getD (n / 2) 0 : Nat) : ℚ)

/-- Per-group median entry of calculate_median_words_by_method_and_version:
0.0 for an empty count list, the hand-rolled median otherwise. -/
def medianWordsEntry (l : List Nat) : ℚ :=
  if l.isEmpty then 0 else handRolledMedian l

/-- Modelled from the spec: the statistics.median library function called
by calculate_median_human_words is Python standard-library code absent
from the repository; following its documentation it returns the middle
value of the sorted data, or the mean of the two middle values when the
length is even. -/
def statisticsMedian (l : List Nat) : ℚ :=
  let s := List.insertionSort (fun a b => a ≤ b) l
  let n := l.length
  if n % 2 == 0 then
    (((s.getD (n / 2 - 1) 0 : Nat) : ℚ) + ((s.getD (n / 2) 0 : Nat) : ℚ)) / 2
  else ((s.getD (n / 2) 0 : Nat) : ℚ)

/-- Word-count list of calculate_median_human_words: one total per session
whose id occurs in the messages map. -/
def sessionWordCounts (sessions : List Session) (md : List (String × List Message)) : List Nat :=
  sessions.filterMap (fun s =>
    match md.find? (fun p => p.1 == s.id) with
    | some p => some (userWordTotal p.2)
    | none => none)

/-- Translation of calculate_median_human_words in
version_comparison_simple.py. -/
def calculate_median_human_words (sessions : List Session) (md : List (String × List Message)) : ℚ :=
  let counts := sessionWordCounts sessions md
  if counts.isEmpty then 0 else statisticsMedian counts

/-- Message lookup with empty default, as messages_data.get does. -/
def lookupMessages (md : List (String × List Message)) (sid : String) : List Message :=
  match md.find? (fun p => p.1 == sid) with
  | some p => p.2
  | none => []

/-- Append a grouped value under a key of an association list, keeping the
insertion order of the underlying Python dict. -/
def insertGrouped (key : String) (v : Session × List Message) :
    List (String × List (Session × List Message)) → List (String × List (Session × List Message))
  | [] => [(key, [v])]
  | (k, vs) :: rest =>
    if k == key then (k, vs ++ [v]) :: rest
    else (k, vs) :: insertGrouped key v rest

/-- Grouping loop of calculate_refrigerator_rate_by_method: non-excluded
sessions keyed by detected coaching method. -/
def groupSessionsByMethod (sessions : List Session) (md : List (String × List Message)) :
    List (String × List (Session × List Message)) :=
  sessions.foldl (fun acc s =>
    let msgs := lookupMessages md s.id
    if should_exclude_session s (some msgs) then acc
    else insertGrouped (detect_coaching_method s (some msgs)) (s, msgs) acc) []

/-- Rate computation of calculate_refrigerator_rate_by_method for one
method group: 0.0 when no session of the group carries a refrigerator
annotation, else the percentage of annotated sessions tagged as
refrigerator examples. -/
def refrigeratorRateFor (pairs : List (Session × List Message)) : ℚ :=
  let annotated := pairs.filter (fun p => has_refrigerator_annotation p.1 (some p.2))
  if annotated.isEmpty then 0
  else
    ((annotated.countP (fun p => has_refrigerator_example_tag p.1 (some p.2)) : Nat) : ℚ) /
      ((annotated.length : Nat) : ℚ) * 100

/-- Translation of calculate_refrigerator_rate_by_method in
version_comparison_simple.py, producing the method-to-rate map as an
association list. -/
def calculate_refrigerator_rate_by_method (sessions : List Session)
    (md : List (String × List Message)) : List (String × ℚ) :=
  (groupSessionsByMethod sessions md).map (fun g => (g.1, refrigeratorRateFor g.2))

/-- Translation of is_split_session in investigate_spike.py, a verbatim
copy of the version_comparison_simple.py function. -/
def is_split_session_spike (msgs : Option (List Message)) : Bool :=
  match msgs with
  | none => false
  | some ms => !hasUserMessage ms

/-- Translation of is_test_session in investigate_spike.py. -/
def is_test_session_spike (s : Session) : Bool :=
  pyEndsWith (participantIdentifier s).data "@dimagi.com".data

/-- Translation of get_version_from_last_message in
find_v6_unknown_sessions.py, a verbatim copy. -/
def get_version_from_last_message_v6find (msgs : List Message) : Nat :=
  match msgs.getLast? with
  | none => 0
  | some last => firstVersionTagValue last.tags

/-- Translation of matches_version in find_v6_unknown_sessions.py, a
verbatim copy of the version_comparison_simple.py method. -/
def matches_version_v6find (s : Session) (cfg : VersionConfig) (msgs : Option (List Message)) : Bool :=
  if !(cfg.experiment_id.contains s.experimentId) then false
  else
    let version_number : Nat :=
      match msgs with
      | some ms => if ms.isEmpty then 0 else get_version_from_last_message_v6find ms
      | none => 0
    match cfg.version_range with
    | none => true
    | some (lo, none) => decide (lo ≤ version_number)
    | some (lo, some hi) => decide (lo ≤ version_number) && decide (version_number ≤ hi)

/-- Translation of detect_coaching_method in find_v6_unknown_sessions.py,
a verbatim copy of the version_comparison_simple.py method. -/
def detect_coaching_method_v6find (s : Session) (msgs : Option (List Message)) : String :=
  match firstMethodTag s.tags with
  | some m => m
  | none =>
    match (match msgs with | none => none | some ms => firstMessageMethodTag ms) with
    | some m => m
    | none =>
      match (match msgs with | none => none | some ms => firstContentMethod ms) with
      | some m => m
      | none => "Unknown"

/-- Count of user-role messages, as the gs-score is_split_session sums
them. -/
def userMessageCount (ms : List Message) : Nat :=
  ms.countP (fun m => m.role == some "user")

/-- Translation of is_split_session in
gs_score_analysis/analyze_gs_scores_refrigerator.py: true when the message
list is absent or empty, else true exactly when the session has fewer than
3 user-role messages. -/
def is_split_session_gs (msgs : Option (List Message)) : Bool :=
  match msgs with
  | none => true
  | some ms => if ms.isEmpty then true else decide (userMessageCount ms < 3)

/-- Translation of is_refrigerator_example in
gs_score_analysis/analyze_gs_scores_refrigerator.py. -/
def is_refrigerator_example_gs (s : Session) (msgs : Option (List Message)) : Bool :=
  s.tags.contains "refrigerator_example" ||
    (match msgs with
     | some ms => ms.any (fun m => m.tags.contains "refrigerator_example")
     | none => false)

/-- Per-participant counters of calculate_participant_refrigerator_rates. -/
structure ParticipantStats where
  total_sessions : Nat
  refrigerator_sessions : Nat
  non_refrigerator_sessions : Nat
  split_sessions : Nat
  refrigerator_split_sessions : Nat
deriving Repr, DecidableEq

/-- Zero counters, the defaultdict initial value. -/
def emptyStats : ParticipantStats := ⟨0, 0, 0, 0, 0⟩

/-- Counter updates of calculate_participant_refrigerator_rates for one
session of a participant. -/
def bumpStats (include_split : Bool) (s : Session) (msgs : List Message)
    (st : ParticipantStats) : ParticipantStats :=
  let is_split := is_split_session_gs (some msgs)
  let st1 :=
    if is_split then
      { st with
        split_sessions := st.split_sessions + 1,
        refrigerator_split_sessions :=
          st.refrigerator_split_sessions +
            (if is_refrigerator_example_gs s (some msgs) then 1 else 0) }
    else st
  if is_split && !include_split then st1
  else
    { st1 with
      total_sessions := st1.total_sessions + 1,
      refrigerator_sessions :=
        st1.refrigerator_sessions + (if is_refrigerator_example_gs s (some msgs) then 1 else 0),
      non_refrigerator_sessions :=
        st1.non_refrigerator_sessions + (if is_refrigerator_example_gs s (some msgs) then 0 else 1) }

/-- Update of the per-participant association list, creating the entry with
zero counters on first touch as a defaultdict does. -/
def updateAssocStats (key : String) (f : ParticipantStats → ParticipantStats) :
    List (String × ParticipantStats) → List (String × ParticipantStats)
  | [] => [(key, f emptyStats)]
  | (k, v) :: rest =>
    if k == key then (k, f v) :: rest else (k, v) :: updateAssocStats key f rest

/-- Counting loop of calculate_participant_refrigerator_rates: skips
sessions with an empty or internal-staff participant identifier and
sessions with an empty id. -/
def participantStatsFold (include_split : Bool) (sessions : List Session)
    (md : List (String × List Message)) : List (String × ParticipantStats) :=
  sessions.foldl (fun acc s =>
    let pid := participantIdentifier s
    if pid == "" || pyEndsWith pid.data "@dimagi.com".data then acc
    else if s.id == "" then acc
    else updateAssocStats pid (bumpStats include_split s (lookupMessages md s.id)) acc) []

/-- Main refrigerator rate of one participant: guarded percentage of
refrigerator sessions among counted sessions. -/
def refrigeratorRateOf (st : ParticipantStats) : ℚ :=
  if 0 < st.total_sessions then
    ((st.refrigerator_sessions : Nat) : ℚ) / ((st.total_sessions : Nat) : ℚ) * 100
  else 0

/-- Split-inclusive refrigerator rate of one participant. -/
def refrigeratorRateWithSplitOf (st : ParticipantStats) : ℚ :=
  let tw := st.total_sessions + st.split_sessions
  if 0 < tw then
    (((st.refrigerator_sessions + st.refrigerator_split_sessions : Nat)) : ℚ) / ((tw : Nat) : ℚ) * 100
  else 0

/-- Translation of calculate_participant_refrigerator_rates in
gs_score_analysis/analyze_gs_scores_refrigerator.py, reduced to the
counters and the two rates each participant receives. -/
def calculate_participant_refrigerator_rates (include_split : Bool) (sessions : List Session)
    (md : List (String × List Message)) : List (String × ℚ × ℚ) :=
  (participantStatsFold include_split sessions md).map
    (fun p => (p.1, refrigeratorRateOf p.2, refrigeratorRateWithSplitOf p.2))

/-- Translation of load_sessions_from_files in
version_comparison_simple.py.  Reading and parsing one session file is
modelled as an Except value: the except branch of the loop skips the file
and continues. -/
def load_sessions_from_files (relevantIds : List String) :
    List (Except String Session) → List Session
  | [] => []
  | f :: fs =>
    match f with
    | .error _ => load_sessions_from_files relevantIds fs
    | .ok s =>
      if pyEndsWith (participantIdentifier s).data "@dimagi.com".data then
        load_sessions_from_files relevantIds fs
      else if relevantIds.contains s.experimentId then
        s :: load_sessions_from_files relevantIds fs
      else load_sessions_from_files relevantIds fs

/-- Session half of load_sessions_and_messages in
find_v6_unknown_sessions.py: every successfully parsed session is kept,
failures are skipped. -/
def load_sessions_v6find : List (Except String Session) → List Session
  | [] => []
  | f :: fs =>
    match f with
    | .error _ => load_sessions_v6find fs
    | .ok s => s :: load_sessions_v6find fs

/-- Message half of load_sessions_and_messages in
find_v6_unknown_sessions.py: each file carries the session id from its
name and either parses to a message list or fails and is skipped. -/
def load_messages_v6find : List (String × Except String (List Message)) → List (String × List Message)
  | [] => []
  | f :: fs =>
    match f.2 with
    | .error _ => load_messages_v6find fs
    | .ok ms => (f.1, ms) :: load_messages_v6find fs

/-- Specification-side test of a version number against a configured range:
an absent range accepts every version, an open-ended range compares against
the minimum only, a closed range against both bounds. -/
def versionRangeTest (r : Option (Nat × Option Nat)) (v : Nat) : Bool :=
  match r with
  | none => true
  | some (lo, none) => decide (lo ≤ v)
  | some (lo, some hi) => decide (lo ≤ v) && decide (v ≤ hi)

/-- Version number matches_version derives from its optional message
argument: 0 when absent or empty, else the last-message version tag
value. -/
def versionOfOpt (msgs : Option (List Message)) : Nat :=
  match msgs with
  | some ms => if ms.isEmpty then 0 else get_version_from_last_message ms
  | none => 0

/-- Names the coaching-method classifier can produce. -/
def coachingMethodNames : List String :=
  ["Scenario", "Microlearning", "Microlearning vaccines",
   "Motivational interviewing", "Visit check in", "Unknown"]

/-- Invariant of the per-participant counters: refrigerator counts never
exceed the session counts they are drawn from. -/
def statsInv (st : ParticipantStats) : Prop :=
  st.refrigerator_sessions ≤ st.total_sessions ∧
  st.refrigerator_split_sessions ≤ st.split_sessions

theorem hasUserMessage_eq_any (ms : List Message) :
    hasUserMessage ms = ms.any (fun m => m.role == some "user") := by
  induction ms with
  | nil => rfl
  | cons m t ih =>
    cases h : (m.role == some "user") <;> simp [hasUserMessage, h, ih]

theorem firstVersionTagValue_eq (ts : List String) :
    firstVersionTagValue ts = (ts.findSome? parseVersionTag).getD 0 := by
  induction ts with
  | nil => rfl
  | cons t ts ih =>
    cases h : parseVersionTag t <;> simp [firstVersionTagValue, List.findSome?_cons, h, ih]

theorem matches_version_eq (s : Session) (cfg : VersionConfig) (msgs : Option (List Message)) :
    matches_version s cfg msgs =
      (cfg.experiment_id.contains s.experimentId &&
        versionRangeTest cfg.version_range (versionOfOpt msgs)) := by
  unfold matches_version versionRangeTest versionOfOpt
  cases h : cfg.experiment_id.contains s.experimentId
  · simp [h]
  · rcases hr : cfg.version_range with _ | ⟨lo, hi⟩
    · simp [h, hr]
    · cases hi <;> simp [h, hr]

theorem firstMethodTag_eq (ts : List String) :
    firstMethodTag ts = ts.findSome? coachMethodOfTag := by
  induction ts with
  | nil => rfl
  | cons t ts ih =>
    cases h : coachMethodOfTag t <;> simp [firstMethodTag, List.findSome?_cons, h, ih]

theorem firstMessageMethodTag_eq (ms : List Message) :
    firstMessageMethodTag ms = ms.findSome? (fun m => m.tags.findSome? coachMethodOfTag) := by
  induction ms with
  | nil => rfl
  | cons m t ih =>
    cases h : firstMethodTag m.tags <;>
      simp [firstMessageMethodTag, List.findSome?_cons, h, ih, firstMethodTag_eq] <;>
      rw [← firstMethodTag_eq, h]

theorem firstContentMethod_eq (ms : List Message) :
    firstContentMethod ms =
      (ms.filter (fun m => m.role == some "assistant")).findSome?
        (fun m => contentMethod m.content) := by
  induction ms with
  | nil => rfl
  | cons m t ih =>
    cases hr : (m.role == some "assistant") with
    | false => simp [firstContentMethod, hr, List.filter_cons, ih]
    | true =>
      cases h : contentMethod m.content <;>
        simp [firstContentMethod, hr, List.filter_cons, List.findSome?_cons, h, ih]

theorem ratingQuestionFound_eq_any (ms : List Message) :
    ratingQuestionFound ms = ms.any assistantHasRatingQuestion := by
  induction ms with
  | nil => rfl
  | cons m t ih =>
    cases h : assistantHasRatingQuestion m <;> simp [ratingQuestionFound, h, ih]

theorem scanUserRatings_eq_find (ms : List Message) :
    scanUserRatings ms =
      (ms.find? (fun m => m.role == some "user" && (userMessageRating m).isSome)).bind
        userMessageRating := by
  induction ms with
  | nil => rfl
  | cons m t ih =>
    cases hr : (m.role == some "user") with
    | false => simp [scanUserRatings, hr, List.find?_cons, ih]
    | true =>
      cases h : userMessageRating m <;>
        simp [scanUserRatings, hr, List.find?_cons, h, ih]

/-- Claim C1, counterexample: the is_split_session function of
gs_score_analysis/analyze_gs_scores_refrigerator.py classifies a session
with exactly one user-role message as a split session, although its
message list does not contain zero user-role messages, so not every
function named is_split_session decides the zero-user-messages
predicate. -/
theorem C1_counterexample :
    is_split_session_gs (some [⟨some "user", "hello", []⟩]) = true ∧
    userMessageCount [⟨some "user", "hello", []⟩] ≠ 0 := by
  exact ⟨by decide, by decide⟩

/-- Claim C1, amended: given a message list, the is_split_session functions
of version_comparison_simple.py and investigate_spike.py decide the
zero-user-messages predicate, while the gs-score variant instead decides
the fewer-than-three-user-messages predicate. -/
theorem C1_split_session_amended (ms : List Message) :
    is_split_session (some ms) = decide (userMessageCount ms = 0) ∧
    is_split_session_spike (some ms) = is_split_session (some ms) ∧
    is_split_session_gs (some ms) = decide (userMessageCount ms < 3) := by
  refine ⟨?_, rfl, ?_⟩
  · show (!hasUserMessage ms) = _
    rw [hasUserMessage_eq_any]
    have h : ms.any (fun m => m.role == some "user") =
        decide (0 < userMessageCount ms) := by
      cases hb : ms.any (fun m => m.role == some "user")
      · simp only [List.any_eq_false] at hb
        have hz : userMessageCount ms = 0 := by
          rw [userMessageCount, List.countP_eq_zero]
          exact hb
        simp [hz]
      · simp only [List.any_eq_true] at hb
        have hz : 0 < userMessageCount ms := by
          rw [userMessageCount, List.countP_pos_iff]
          exact hb
        simp [hz]
    rw [h]
    rcases Nat.eq_zero_or_pos (userMessageCount ms) with hz | hz
    · simp [hz]
    · simp [hz, Nat.pos_iff_ne_zero.mp hz]
  · cases ms with
    | nil => rfl
    | cons m t => rfl

/-- Claim C3: matches_version rejects a session whose experiment id is not
in the configured list, and otherwise its answer is exactly the range test
applied to the version number read from the last message, which is the
value of the first version tag of the last message and 0 when the message
list is absent, empty, or tagless; the find_v6_unknown_sessions.py copy
agrees everywhere. -/
theorem C3_matches_version (s : Session) (cfg : VersionConfig) (msgs : Option (List Message)) :
    matches_version s cfg msgs =
      (cfg.experiment_id.contains s.experimentId &&
        versionRangeTest cfg.version_range (versionOfOpt msgs)) ∧
    versionOfOpt msgs =
      ((msgs.bind List.getLast?).bind (fun m => m.tags.findSome? parseVersionTag)).getD 0 ∧
    matches_version_v6find s cfg msgs = matches_version s cfg msgs := by
  refine ⟨matches_version_eq s cfg msgs, ?_, rfl⟩
  rcases msgs with _ | ms
  · rfl
  · rcases ms with _ | ⟨m, t⟩
    · rfl
    · show get_version_from_last_message (m :: t) = _
      unfold get_version_from_last_message
      rcases h : (m :: t).getLast? with _ | last
      · simp [h]
      · simp [h, firstVersionTagValue_eq]

/-- Claim C5: a session is a test session exactly when its participant
identifier ends with the internal staff domain, a session with a missing
participant record or identifier key is never a test session, and the
investigate_spike.py copy agrees everywhere. -/
theorem C5_test_session (s : Session) :
    (∀ p idf, s.participant = some p → p.identifier = some idf →
      is_test_session s = List.isSuffixOf "@dimagi.com".data idf.data) ∧
    (s.participant = none → is_test_session s = false) ∧
    (∀ p, s.participant = some p → p.identifier = none → is_test_session s = false) ∧
    is_test_session_spike s = is_test_session s := by
  refine ⟨?_, ?_, ?_, rfl⟩
  · intro p idf hp hi
    simp [is_test_session, participantIdentifier, hp, hi, pyEndsWith]
  · intro hp
    simp [is_test_session, participantIdentifier, hp, pyEndsWith]
  · intro p hp hi
    simp [is_test_session, participantIdentifier, hp, hi, pyEndsWith]

/-- Claim C5, witness: a staff identifier is dropped, a missing participant
record is kept, and a missing identifier key is kept. -/
theorem C5_test_session_witness :
    is_test_session ⟨"s1", some ⟨some "alice@dimagi.com"⟩, "", []⟩ = true ∧
    is_test_session ⟨"s2", none, "", []⟩ = false ∧
    is_test_session ⟨"s3", some ⟨none⟩, "", []⟩ = false := by
  refine ⟨?_, ?_, ?_⟩
  · rw [(C5_test_session ⟨"s1", some ⟨some "alice@dimagi.com"⟩, "", []⟩).1
      ⟨some "alice@dimagi.com"⟩ "alice@dimagi.com" rfl rfl]
    decide
  · exact (C5_test_session _).2.1 rfl
  · exact (C5_test_session _).2.2.1 ⟨none⟩ rfl rfl

/-- Claim C10: on the experiment id shared by Coaching bot V5 and Coaching
bot V6, no session matches both version buckets, and a session whose
derived version number is 0 matches neither. -/
theorem C10_v5_v6_exclusive (s : Session) (msgs : Option (List Message)) :
    (¬(matches_version s coachingBotV5Config msgs = true ∧
        matches_version s coachingBotV6Config msgs = true)) ∧
    (versionOfOpt msgs = 0 →
      matches_version s coachingBotV5Config msgs = false ∧
      matches_version s coachingBotV6Config msgs = false) := by
  have h5 := matches_version_eq s coachingBotV5Config msgs
  have h6 := matches_version_eq s coachingBotV6Config msgs
  constructor
  · rintro ⟨a5, a6⟩
    rw [h5] at a5
    rw [h6] at a6
    simp [coachingBotV5Config, coachingBotV6Config, versionRangeTest] at a5 a6
    omega
  · intro hv
    rw [h5, h6, hv]
    simp [coachingBotV5Config, coachingBotV6Config, versionRangeTest]

/-- Claim C10, witness: a session on the shared experiment id whose last
message carries no version tag matches neither V5 nor V6. -/
theorem C10_witness :
    matches_version ⟨"", none, "5d8be75e-03ff-4e3a-ab6a-e0aff6580986", []⟩ coachingBotV5Config
        (some [⟨some "assistant", "hi", []⟩]) = false ∧
    matches_version ⟨"", none, "5d8be75e-03ff-4e3a-ab6a-e0aff6580986", []⟩ coachingBotV6Config
        (some [⟨some "assistant", "hi", []⟩]) = false :=
  (C10_v5_v6_exclusive _ _).2 rfl

theorem coachMethodOfTag_mem {t m : String} (h : coachMethodOfTag t = some m) :
    m ∈ coachingMethodNames := by
  unfold coachMethodOfTag at h
  split_ifs at h <;> simp_all [coachingMethodNames]

theorem contentMethod_mem {c : String} {m : String} (h : contentMethod c = some m) :
    m ∈ coachingMethodNames := by
  simp only [contentMethod] at h
  split_ifs at h <;> simp_all [coachingMethodNames]

theorem firstMethodTag_mem : ∀ {ts : List String} {m : String},
    firstMethodTag ts = some m → m ∈ coachingMethodNames := by
  intro ts
  induction ts with
  | nil => intro m h; simp [firstMethodTag] at h
  | cons t ts ih =>
    intro m h
    unfold firstMethodTag at h
    cases hc : coachMethodOfTag t <;> rw [hc] at h
    · exact ih h
    · cases h
      exact coachMethodOfTag_mem hc

theorem firstMessageMethodTag_mem : ∀ {ms : List Message} {m : String},
    firstMessageMethodTag ms = some m → m ∈ coachingMethodNames := by
  intro ms
  induction ms with
  | nil => intro m h; simp [firstMessageMethodTag] at h
  | cons x xs ih =>
    intro m h
    unfold firstMessageMethodTag at h
    cases hc : firstMethodTag x.tags <;> rw [hc] at h
    · exact ih h
    · cases h
      exact firstMethodTag_mem hc

theorem firstContentMethod_mem : ∀ {ms : List Message} {m : String},
    firstContentMethod ms = some m → m ∈ coachingMethodNames := by
  intro ms
  induction ms with
  | nil => intro m h; simp [firstContentMethod] at h
  | cons x xs ih =>
    intro m h
    unfold firstContentMethod at h
    cases hr : (x.role == some "assistant") <;> rw [hr] at h
    · exact ih (by simpa using h)
    · simp only [if_true] at h
      cases hc : contentMethod x.content <;> rw [hc] at h
      · exact ih h
      · cases h
        exact contentMethod_mem hc

/-- Claim C4: the coaching-method classifier always lands in the fixed set
of five method names plus Unknown, its answer is the three-tier fallback
of session tags, then message tags, then assistant-content keywords with
Unknown as the final default, and the find_v6_unknown_sessions.py copy
agrees everywhere. -/
theorem C4_detect_coaching_method (s : Session) (msgs : Option (List Message)) :
    detect_coaching_method s msgs ∈ coachingMethodNames ∧
    detect_coaching_method s msgs =
      (((s.tags.findSome? coachMethodOfTag).orElse
          (fun _ => (msgs.getD []).findSome? (fun m => m.tags.findSome? coachMethodOfTag))).orElse
        (fun _ => ((msgs.getD []).filter (fun m => m.role == some "assistant")).findSome?
          (fun m => contentMethod m.content))).getD "Unknown" ∧
    detect_coaching_method_v6find s msgs = detect_coaching_method s msgs := by
  refine ⟨?_, ?_, rfl⟩
  · unfold detect_coaching_method
    cases h1 : firstMethodTag s.tags
    · rcases msgs with _ | ms
      · simp [coachingMethodNames]
      · cases h2 : firstMessageMethodTag ms
        · cases h3 : firstContentMethod ms
          · simp [h2, h3, coachingMethodNames]
          · simpa [h2, h3] using firstContentMethod_mem h3
        · simpa [h2] using firstMessageMethodTag_mem h2
    · simpa using firstMethodTag_mem h1
  · unfold detect_coaching_method
    rw [firstMethodTag_eq]
    cases h1 : s.tags.findSome? coachMethodOfTag
    · rcases msgs with _ | ms
      · simp [h1, Option.orElse]
      · dsimp only
        rw [firstMessageMethodTag_eq, firstContentMethod_eq]
        cases h2 : ms.findSome? (fun m => m.tags.findSome? coachMethodOfTag)
        · cases h3 : (ms.filter (fun m => m.role == some "assistant")).findSome?
              (fun m => contentMethod m.content) <;>
            simp [h1, h2, h3, Option.orElse]
        · simp [h1, h2, Option.orElse]
    · simp [h1, Option.orElse]

theorem userMessageRating_cra_eq (m : Message) : userMessageRating_cra m = userMessageRating m := rfl

theorem assistantHasRatingQuestion_cra_eq (m : Message) :
    assistantHasRatingQuestion_cra m = assistantHasRatingQuestion m := rfl

theorem ratingQuestionFound_cra_eq (ms : List Message) :
    ratingQuestionFound_cra ms = ratingQuestionFound ms := by
  induction ms with
  | nil => rfl
  | cons m t ih =>
    unfold ratingQuestionFound_cra ratingQuestionFound
    rw [ih, assistantHasRatingQuestion_cra_eq]

theorem scanUserRatings_cra_eq (ms : List Message) :
    scanUserRatings_cra ms = scanUserRatings ms := by
  induction ms with
  | nil => rfl
  | cons m t ih =>
    unfold scanUserRatings_cra scanUserRatings
    rw [ih, userMessageRating_cra_eq]

theorem extract_rating_from_session_eq (msgs : List Message) :
    extract_rating_from_session msgs = extract_session_rating msgs := by
  unfold extract_rating_from_session extract_session_rating
  rw [ratingQuestionFound_cra_eq, scanUserRatings_cra_eq]

/-- Claim C2: the rating extractor returns nothing when no assistant
message matches a rating-question pattern, and otherwise returns the
rating of the latest user message passing one of the three response
checks, with nothing when no user message passes; the
comprehensive_rating_analysis.py copy agrees everywhere. -/
theorem C2_extract_session_rating (msgs : List Message) :
    extract_session_rating msgs =
      (if msgs.any assistantHasRatingQuestion then
        (msgs.reverse.find? (fun m => m.role == some "user" && (userMessageRating m).isSome)).bind
          userMessageRating
      else none) ∧
    extract_rating_from_session msgs = extract_session_rating msgs := by
  refine ⟨?_, extract_rating_from_session_eq msgs⟩
  unfold extract_session_rating
  rcases msgs with _ | ⟨m, t⟩
  · simp
  · simp only [List.isEmpty_cons, Bool.false_eq_true, if_false,
      ratingQuestionFound_eq_any, List.any_reverse, scanUserRatings_eq_find]

theorem isDigit15_digitVal {c : Char} (h : isDigit15 c = true) :
    1 ≤ digitVal c ∧ digitVal c ≤ 5 := by
  have h' : c ∈ ['1', '2', '3', '4', '5'] := by simpa [isDigit15] using h
  fin_cases h' <;> decide

theorem matchFullSpacedDigit_digit {s : List Char} {c : Char}
    (h : matchFullSpacedDigit s = some c) : isDigit15 c = true := by
  unfold matchFullSpacedDigit at h
  rcases hd : s.dropWhile pySpace with _ | ⟨a, rest⟩ <;> rw [hd] at h <;> dsimp only at h
  · exact absurd h (by simp)
  · split_ifs at h with hc
    cases h
    exact (Bool.and_eq_true _ _ |>.mp hc).1

theorem searchBoundedDigit15_digit : ∀ {prev : Option Char} {s : List Char} {c : Char},
    searchBoundedDigit15 prev s = some c → isDigit15 c = true := by
  intro prev s
  induction s generalizing prev with
  | nil => intro c h; simp [searchBoundedDigit15] at h
  | cons a rest ih =>
    intro c h
    simp only [searchBoundedDigit15] at h
    split_ifs at h with hc
    · cases h
      simp only [Bool.and_eq_true] at hc
      exact hc.1.1
    · exact ih h

theorem userMessageRating_range {m : Message} {r : Nat}
    (h : userMessageRating m = some r) : 1 ≤ r ∧ r ≤ 5 := by
  simp only [userMessageRating] at h
  cases h1 : matchFullSpacedDigit (pyStrip m.content.data) <;> rw [h1] at h <;> dsimp only at h
  · cases h2 : writtenNumberValue (pyLower (pyStrip m.content.data)) <;> rw [h2] at h <;>
      dsimp only at h
    · cases h3 : searchBoundedDigit15 none (pyStrip m.content.data) <;> rw [h3] at h <;>
        dsimp only at h
      · exact absurd h (by simp)
      · split_ifs at h
        cases h
        exact isDigit15_digitVal (searchBoundedDigit15_digit h3)
    · cases h
      unfold writtenNumberValue at h2
      split_ifs at h2 <;> cases h2 <;> omega
  · cases h
    exact isDigit15_digitVal (matchFullSpacedDigit_digit h1)

theorem scanUserRatings_range : ∀ {ms : List Message} {r : Nat},
    scanUserRatings ms = some r → 1 ≤ r ∧ r ≤ 5 := by
  intro ms
  induction ms with
  | nil => intro r h; simp [scanUserRatings] at h
  | cons m t ih =>
    intro r h
    unfold scanUserRatings at h
    cases hr : (m.role == some "user") <;> rw [hr] at h
    · exact ih (by simpa using h)
    · simp only [if_true] at h
      cases hu : userMessageRating m <;> rw [hu] at h
      · exact ih h
      · cases h
        exact userMessageRating_range hu

/-- Claim C8: a rating the extractor returns always lies on the 1 to 5
scale, for both the version_comparison_simple.py extractor and the
comprehensive_rating_analysis.py copy. -/
theorem C8_rating_range (msgs : List Message) (r : Nat) :
    (extract_session_rating msgs = some r → 1 ≤ r ∧ r ≤ 5) ∧
    (extract_rating_from_session msgs = some r → 1 ≤ r ∧ r ≤ 5) := by
  have key : extract_session_rating msgs = some r → 1 ≤ r ∧ r ≤ 5 := by
    intro h
    unfold extract_session_rating at h
    split_ifs at h
    exact scanUserRatings_range h
  refine ⟨key, fun h => key ?_⟩
  rw [extract_rating_from_session_eq] at h
  exact h

/-- Claim C8, witness: a session asking a rating question whose last user
message is the lone digit 5 yields the rating 5, inside the scale. -/
theorem C8_witness :
    extract_session_rating
        [⟨some "assistant", "How useful was this? Rate it 1 to 5", []⟩,
         ⟨some "user", "5", []⟩] = some 5 ∧
    1 ≤ 5 ∧ 5 ≤ 5 := by
  have h : extract_session_rating
      [⟨some "assistant", "How useful was this? Rate it 1 to 5", []⟩,
       ⟨some "user", "5", []⟩] = some 5 := by decide
  exact ⟨h, (C8_rating_range _ 5).1 h⟩

/-- Claim C6: the loaders are total functions of the per-file parse
outcomes: a file whose read or parse fails is skipped without aborting the
run, and the results hold exactly the entries of the successfully parsed
files, subject to the staff and experiment filters of the
version_comparison_simple.py session loader. -/
theorem C6_loader_skips_failures (ids : List String) (files sfiles : List (Except String Session))
    (mfiles : List (String × Except String (List Message))) :
    load_sessions_from_files ids files =
      (files.filterMap Except.toOption).filter
        (fun s => !pyEndsWith (participantIdentifier s).data "@dimagi.com".data &&
          ids.contains s.experimentId) ∧
    load_sessions_v6find sfiles = sfiles.filterMap Except.toOption ∧
    load_messages_v6find mfiles =
      mfiles.filterMap (fun f => (Except.toOption f.2).map (fun ms => (f.1, ms))) := by
  refine ⟨?_, ?_, ?_⟩
  · induction files with
    | nil => rfl
    | cons f fs ih =>
      rcases f with e | s
      · simpa [load_sessions_from_files, Except.toOption] using ih
      · by_cases hd : pyEndsWith (participantIdentifier s).data "@dimagi.com".data = true
        · simp [load_sessions_from_files, Except.toOption, List.filterMap_cons,
            List.filter_cons, hd, ih]
        · by_cases hc : ids.contains s.experimentId = true
          · simp [load_sessions_from_files, Except.toOption, List.filterMap_cons,
              List.filter_cons, hd, hc, ih]
          · simp [load_sessions_from_files, Except.toOption, List.filterMap_cons,
              List.filter_cons, hd, hc, ih]
  · induction sfiles with
    | nil => rfl
    | cons f fs ih =>
      rcases f with e | s <;>
        simp [load_sessions_v6find, Except.toOption, List.filterMap_cons, ih]
  · induction mfiles with
    | nil => rfl
    | cons f fs ih =>
      rcases f with ⟨sid, e | ms⟩ <;>
        simp [load_messages_v6find, Except.toOption, List.filterMap_cons, ih]

theorem mergeSort_sorted_nat (l : List Nat) :
    List.Sorted (· ≤ ·) (l.mergeSort (fun a b => a ≤ b)) := by
  have h := @List.sorted_mergeSort Nat (fun a b => decide (a ≤ b))
      (fun a b c hab hbc => by
        simp only [decide_eq_true_eq] at *
        omega)
      (fun a b => by
        simp only [Bool.or_eq_true, decide_eq_true_eq]
        omega) l
  exact h.imp (fun hab => by simpa using hab)

theorem mergeSort_eq_insertionSort_nat (l : List Nat) :
    l.mergeSort (fun a b => a ≤ b) = List.insertionSort (fun a b => a ≤ b) l := by
  refine @List.eq_of_perm_of_sorted Nat (· ≤ ·) _ _ _ ?_ ?_ ?_
  · exact (List.mergeSort_perm l _).trans (List.perm_insertionSort _ l).symm
  · exact mergeSort_sorted_nat l
  · exact List.sorted_insertionSort _ l

theorem handRolledMedian_eq_statisticsMedian (l : List Nat) :
    handRolledMedian l = statisticsMedian l := by
  unfold handRolledMedian statisticsMedian
  rw [mergeSort_eq_insertionSort_nat]

/-- Claim C7: the hand-rolled median of
calculate_median_words_by_method_and_version agrees with the modelled
library median of calculate_median_human_words on every count list, and
both aggregation paths return 0 on an empty count list. -/
theorem C7_median_agreement (l : List Nat) (sessions : List Session)
    (md : List (String × List Message)) :
    medianWordsEntry l = (if l.isEmpty then 0 else statisticsMedian l) ∧
    medianWordsEntry [] = 0 ∧
    calculate_median_human_words sessions md = medianWordsEntry (sessionWordCounts sessions md) := by
  refine ⟨?_, rfl, ?_⟩
  · unfold medianWordsEntry
    rw [handRolledMedian_eq_statisticsMedian]
  · unfold calculate_median_human_words medianWordsEntry
    rw [handRolledMedian_eq_statisticsMedian]

theorem ratePct_bounds {c n : Nat} (hcn : c ≤ n) (hn : 0 < n) :
    0 ≤ ((c : ℚ) / (n : ℚ)) * 100 ∧ ((c : ℚ) / (n : ℚ)) * 100 ≤ 100 := by
  have hn' : (0 : ℚ) < (n : ℚ) := by exact_mod_cast hn
  have hc' : (c : ℚ) ≤ (n : ℚ) := by exact_mod_cast hcn
  constructor
  · have h0 : (0 : ℚ) ≤ (c : ℚ) / (n : ℚ) := div_nonneg (by positivity) (le_of_lt hn')
    nlinarith
  · have h1 : (c : ℚ) / (n : ℚ) ≤ 1 := (div_le_one hn').mpr hc'
    nlinarith

theorem refrigeratorRateFor_bounds (pairs : List (Session × List Message)) :
    0 ≤ refrigeratorRateFor pairs ∧ refrigeratorRateFor pairs ≤ 100 := by
  simp only [refrigeratorRateFor]
  by_cases he :
      (pairs.filter (fun p => has_refrigerator_annotation p.1 (some p.2))).isEmpty = true
  · simp [he]
  · simp only [he, if_false]
    apply ratePct_bounds
    · exact List.countP_le_length _
    · rcases hl : pairs.filter (fun p => has_refrigerator_annotation p.1 (some p.2)) with _ | ⟨a, t⟩
      · rw [hl] at he
        simp at he
      · simp [hl]

theorem emptyStats_inv : statsInv emptyStats := by
  constructor <;> simp [emptyStats]

theorem bumpStats_inv (inc : Bool) (s : Session) (msgs : List Message) (st : ParticipantStats)
    (h : statsInv st) : statsInv (bumpStats inc s msgs st) := by
  obtain ⟨h1, h2⟩ := h
  simp only [bumpStats]
  split_ifs <;> constructor <;> (try simp) <;> omega

theorem updateAssocStats_inv (key : String) (f : ParticipantStats → ParticipantStats)
    (hf : ∀ st, statsInv st → statsInv (f st)) :
    ∀ l : List (String × ParticipantStats), (∀ p ∈ l, statsInv p.2) →
      ∀ p ∈ updateAssocStats key f l, statsInv p.2 := by
  intro l
  induction l with
  | nil =>
    intro _ p hp
    simp only [updateAssocStats, List.mem_singleton] at hp
    subst hp
    exact hf _ emptyStats_inv
  | cons q t ih =>
    intro hl p hp
    rcases q with ⟨k, v⟩
    simp only [updateAssocStats] at hp
    by_cases hk : (k == key) = true <;> simp only [hk, if_true, if_false] at hp
    · rcases List.mem_cons.mp hp with rfl | hmem
      · exact hf _ (hl (k, v) (by simp))
      · exact hl _ (List.mem_cons_of_mem _ hmem)
    · rcases List.mem_cons.mp hp with rfl | hmem
      · exact hl _ (by simp)
      · exact ih (fun q hq => hl q (List.mem_cons_of_mem _ hq)) p hmem

theorem participantStatsFold_inv (inc : Bool) (sessions : List Session)
    (md : List (String × List Message)) :
    ∀ p ∈ participantStatsFold inc sessions md, statsInv p.2 := by
  unfold participantStatsFold
  suffices h : ∀ acc : List (String × ParticipantStats), (∀ p ∈ acc, statsInv p.2) →
      ∀ p ∈ sessions.foldl (fun acc s =>
        let pid := participantIdentifier s
        if pid == "" || pyEndsWith pid.data "@dimagi.com".data then acc
        else if s.id == "" then acc
        else updateAssocStats pid (bumpStats inc s (lookupMessages md s.id)) acc) acc,
      statsInv p.2 by
    exact h [] (by simp)
  induction sessions with
  | nil => intro acc hacc; simpa using hacc
  | cons s t ih =>
    intro acc hacc
    simp only [List.foldl_cons]
    apply ih
    dsimp only
    split_ifs
    · exact hacc
    · exact hacc
    · exact updateAssocStats_inv _ _ (bumpStats_inv inc s (lookupMessages md s.id)) acc hacc

theorem refrigeratorRateOf_bounds (st : ParticipantStats) (h : statsInv st) :
    0 ≤ refrigeratorRateOf st ∧ refrigeratorRateOf st ≤ 100 := by
  unfold refrigeratorRateOf
  split_ifs with ht
  · exact ratePct_bounds h.1 ht
  · norm_num

theorem refrigeratorRateWithSplitOf_bounds (st : ParticipantStats) (h : statsInv st) :
    0 ≤ refrigeratorRateWithSplitOf st ∧ refrigeratorRateWithSplitOf st ≤ 100 := by
  simp only [refrigeratorRateWithSplitOf]
  split_ifs with ht
  · exact ratePct_bounds (Nat.add_le_add h.1 h.2) ht
  · norm_num

/-- Claim C9: every refrigerator-example rate the aggregators return comes
from a guarded division: an empty annotated group rates 0 instead of
dividing by zero, a participant with no counted sessions rates 0, and
every produced rate lies between 0 and 100. -/
theorem C9_refrigerator_rates (sessions : List Session) (md : List (String × List Message))
    (include_split : Bool) :
    (∀ mth : String, ∀ r : ℚ, (mth, r) ∈ calculate_refrigerator_rate_by_method sessions md →
      0 ≤ r ∧ r ≤ 100) ∧
    (∀ pairs : List (Session × List Message),
      (pairs.filter (fun p => has_refrigerator_annotation p.1 (some p.2))).isEmpty = true →
      refrigeratorRateFor pairs = 0) ∧
    (∀ pid : String, ∀ ra rb : ℚ,
      (pid, ra, rb) ∈ calculate_participant_refrigerator_rates include_split sessions md →
      (0 ≤ ra ∧ ra ≤ 100) ∧ (0 ≤ rb ∧ rb ≤ 100)) ∧
    (∀ st : ParticipantStats, st.total_sessions = 0 → refrigeratorRateOf st = 0) := by
  refine ⟨?_, ?_, ?_, ?_⟩
  · intro mth r hmem
    unfold calculate_refrigerator_rate_by_method at hmem
    rcases List.mem_map.mp hmem with ⟨g, _, hg⟩
    cases hg
    exact refrigeratorRateFor_bounds g.2
  · intro pairs he
    simp [refrigeratorRateFor, he]
  · intro pid ra rb hmem
    unfold calculate_participant_refrigerator_rates at hmem
    rcases List.mem_map.mp hmem with ⟨p, hp, hg⟩
    cases hg
    have hinv := participantStatsFold_inv include_split sessions md p hp
    exact ⟨refrigeratorRateOf_bounds p.2 hinv, refrigeratorRateWithSplitOf_bounds p.2 hinv⟩
  · intro st ht
    simp [refrigeratorRateOf, ht]

/-- Claim C9, witness: a single annotated refrigerator session yields the
method rate 100 and participant rates 0 and 100, all inside the bounds,
and the empty-group guards return 0. -/
theorem C9_witness :
    (("Unknown", (100 : ℚ)) ∈
        calculate_refrigerator_rate_by_method
          [⟨"sid", some ⟨some "alice@example.com"⟩, "exp", ["refrigerator_example"]⟩]
          [("sid", [⟨some "user", "hello", []⟩])] ∧
      (0 ≤ (100 : ℚ) ∧ (100 : ℚ) ≤ 100)) ∧
    refrigeratorRateFor [] = 0 ∧
    (("alice@example.com", (0 : ℚ), (100 : ℚ)) ∈
        calculate_participant_refrigerator_rates false
          [⟨"sid", some ⟨some "alice@example.com"⟩, "exp", ["refrigerator_example"]⟩]
          [("sid", [⟨some "user", "hello", []⟩])] ∧
      ((0 ≤ (0 : ℚ) ∧ (0 : ℚ) ≤ 100) ∧ (0 ≤ (100 : ℚ) ∧ (100 : ℚ) ≤ 100))) ∧
    refrigeratorRateOf ⟨0, 0, 0, 1, 1⟩ = 0 := by
  have hg : groupSessionsByMethod
      [⟨"sid", some ⟨some "alice@example.com"⟩, "exp", ["refrigerator_example"]⟩]
      [("sid", [⟨some "user", "hello", []⟩])] =
      [("Unknown", [(⟨"sid", some ⟨some "alice@example.com"⟩, "exp", ["refrigerator_example"]⟩,
        [⟨some "user", "hello", []⟩])])] := by decide
  have hr : refrigeratorRateFor
      [(⟨"sid", some ⟨some "alice@example.com"⟩, "exp", ["refrigerator_example"]⟩,
        [⟨some "user", "hello", []⟩])] = 100 := by
    have h1 : List.filter (fun p => has_refrigerator_annotation p.1 (some p.2))
        [(⟨"sid", some ⟨some "alice@example.com"⟩, "exp", ["refrigerator_example"]⟩,
          [⟨some "user", "hello", []⟩])] =
        [(⟨"sid", some ⟨some "alice@example.com"⟩, "exp", ["refrigerator_example"]⟩,
          [⟨some "user", "hello", []⟩])] := by decide
    have h2 : List.countP (fun p => has_refrigerator_example_tag p.1 (some p.2))
        [(⟨"sid", some ⟨some "alice@example.com"⟩, "exp", ["refrigerator_example"]⟩,
          [⟨some "user", "hello", []⟩])] = 1 := by decide
    simp only [refrigeratorRateFor, h1, h2]
    norm_num
  have hm : ("Unknown", (100 : ℚ)) ∈
      calculate_refrigerator_rate_by_method
        [⟨"sid", some ⟨some "alice@example.com"⟩, "exp", ["refrigerator_example"]⟩]
        [("sid", [⟨some "user", "hello", []⟩])] := by
    unfold calculate_refrigerator_rate_by_method
    rw [hg]
    simp only [List.map_cons, List.map_nil, hr]
    exact List.mem_singleton.mpr rfl
  have hf : participantStatsFold false
      [⟨"sid", some ⟨some "alice@example.com"⟩, "exp", ["refrigerator_example"]⟩]
      [("sid", [⟨some "user", "hello", []⟩])] =
      [("alice@example.com", ⟨0, 0, 0, 1, 1⟩)] := by decide
  have hro : refrigeratorRateOf ⟨0, 0, 0, 1, 1⟩ = 0 := by
    simp [refrigeratorRateOf]
  have hrw : refrigeratorRateWithSplitOf ⟨0, 0, 0, 1, 1⟩ = 100 := by
    simp only [refrigeratorRateWithSplitOf]
    norm_num
  have hp : ("alice@example.com", (0 : ℚ), (100 : ℚ)) ∈
      calculate_participant_refrigerator_rates false
        [⟨"sid", some ⟨some "alice@example.com"⟩, "exp", ["refrigerator_example"]⟩]
        [("sid", [⟨some "user", "hello", []⟩])] := by
    unfold calculate_participant_refrigerator_rates
    rw [hf]
    simp only [List.map_cons, List.map_nil, hro, hrw]
    exact List.mem_singleton.mpr rfl
  have hc := C9_refrigerator_rates
    [⟨"sid", some ⟨some "alice@example.com"⟩, "exp", ["refrigerator_example"]⟩]
    [("sid", [⟨some "user", "hello", []⟩])] false
  exact ⟨⟨hm, hc.1 "Unknown" 100 hm⟩, hc.2.1 [] rfl,
    ⟨hp, hc.2.2.1 "alice@example.com" 0 100 hp⟩, hc.2.2.2 ⟨0, 0, 0, 1, 1⟩ rfl⟩

end ECD
